import Mathlib

/-
  Verification development for the rox bytecode compiler and stack VM
  (src/chunk.rs, src/value.rs, src/vm.rs, src/compiler.rs, src/ast.rs,
  src/token.rs).  Rust definitions are shallowly embedded: machine bytes
  are `Nat` (with explicit `% 256` / `% 65536` where the code masks),
  `Vec` is `List` (push appends at the end), `HashMap<String, Value>` is
  an association list, fallible operations return `Except`/`Option`,
  and Rust panics (`todo!()`, `expect`, `unwrap`, out-of-bounds
  indexing, `usize` underflow) are a separate `crash` outcome.
-/

namespace rox

/--
Model of Rust `f64` restricted to what the repository observes about it:
`isNaN` marks a NaN payload, `val` is the numeric value as an ideal
rational.  IEEE-754 `==`, `<`, `<=`, `>`, `>=` are false whenever either
operand is NaN, and equality of non-NaN values is numeric (so `0.0 == -0.0`
holds, both being `val = 0`).  Rounding, infinities and signed zeros are
not modelled; no claim in this development depends on them (division,
which could produce infinities, is never the subject of a claim).
-/
structure F64 where
  isNaN : Bool
  val : Rat
deriving DecidableEq

/-- NaN witness: the `isNaN` flag set, payload irrelevant. -/
def F64.nan : F64 := ⟨true, 0⟩

/-- IEEE-754 `==` on `f64`: false if either side is NaN, numeric otherwise. -/
def f64Beq (a b : F64) : Bool := !a.isNaN && !b.isNaN && decide (a.val = b.val)

/-- IEEE-754 addition, up to rounding/overflow: NaN propagates. -/
def f64add (a b : F64) : F64 :=
  if a.isNaN || b.isNaN then F64.nan else ⟨false, a.val + b.val⟩

/-- IEEE-754 subtraction, up to rounding/overflow: NaN propagates. -/
def f64sub (a b : F64) : F64 :=
  if a.isNaN || b.isNaN then F64.nan else ⟨false, a.val - b.val⟩

/-- IEEE-754 multiplication, up to rounding/overflow: NaN propagates. -/
def f64mul (a b : F64) : F64 :=
  if a.isNaN || b.isNaN then F64.nan else ⟨false, a.val * b.val⟩

/-- Division; NaN propagates.  Division by zero yields NaN here where
IEEE-754 would yield an infinity (for a nonzero dividend); no claim
depends on the numeric result of a division. -/
def f64div (a b : F64) : F64 :=
  if a.isNaN || b.isNaN || decide (b.val = 0) then F64.nan else ⟨false, a.val / b.val⟩

/-- Unary negation (`vm.rs` OpNegate). -/
def f64neg (a : F64) : F64 := if a.isNaN then F64.nan else ⟨false, -a.val⟩

/-- IEEE-754 `<`: false if either operand is NaN. -/
def f64lt (a b : F64) : Bool := !a.isNaN && !b.isNaN && decide (a.val < b.val)

/-- IEEE-754 `<=`: false if either operand is NaN. -/
def f64le (a b : F64) : Bool := !a.isNaN && !b.isNaN && decide (a.val ≤ b.val)

/-- IEEE-754 `>`: false if either operand is NaN. -/
def f64gt (a b : F64) : Bool := !a.isNaN && !b.isNaN && decide (b.val < a.val)

/-- IEEE-754 `>=`: false if either operand is NaN. -/
def f64ge (a b : F64) : Bool := !a.isNaN && !b.isNaN && decide (b.val ≤ a.val)

/--
Line table from `chunk.rs` (`struct LineInfo { info: Vec<(usize, usize)> }`):
logical tuples `(offset, lineno)` where `offset` is the first code offset
belonging to `lineno`.
-/
structure LineInfo where
  info : List (Nat × Nat)
deriving DecidableEq

namespace LineInfo

/-- Function `LineInfo::new` from chunk.rs. -/
def new : LineInfo := ⟨[]⟩

/-- Function `LineInfo::add` from chunk.rs: push `(offset, lineno)` when the
table is empty or when `lineno` strictly exceeds the last stored line. -/
def add (li : LineInfo) (offset lineno : Nat) : LineInfo :=
  match li.info.getLast? with
  | none => ⟨li.info ++ [(offset, lineno)]⟩
  | some (_, current_lineno) =>
    if lineno > current_lineno then ⟨li.info ++ [(offset, lineno)]⟩ else li

/-- Loop body of `LineInfo::get_lineno` from chunk.rs.  `prev` is
`Some (info[index - 1].1)` when at least one entry has been passed, `none`
at index 0 — exactly the value the Rust loop returns in its
`offset < current_offset` branch. -/
def getLinenoGo (prev : Option Nat) : List (Nat × Nat) → Nat → Option Nat
  | [], _ => prev
  | (current_offset, current_lineno) :: rest, offset =>
    if offset = current_offset then some current_lineno
    else if offset < current_offset then prev
    else getLinenoGo (some current_lineno) rest offset

/-- Function `LineInfo::get_lineno` from chunk.rs: scan the entries in order;
return the line of an exact offset match, the previous entry's line when the
query falls before the current entry, and the last entry's line when the
query runs past the end. -/
def get_lineno (li : LineInfo) (offset : Nat) : Option Nat :=
  getLinenoGo none li.info offset

end LineInfo

/-- Opcode enum from chunk.rs, in declaration order (discriminants 0..29). -/
inductive OpCode where
  | OpConstant
  | OpAdd
  | OpSubtract
  | OpMultiply
  | OpDivide
  | OpNegate
  | OpPrint
  | OpReturn
  | OpTrue
  | OpFalse
  | OpNot
  | OpEqualEqual
  | OpBangEqual
  | OpLess
  | OpLessEqual
  | OpGreater
  | OpGreaterEqual
  | OpDefineGlobal
  | OpGetGlobal
  | OpSetGlobal
  | OpPop
  | OpPopN
  | OpGetLocal
  | OpSetLocal
  | OpJump
  | OpJumpIfTrue
  | OpJumpIfFalse
  | OpLoop
  | OpCall
  | OpEof
deriving DecidableEq

namespace OpCode

/-- Rust `OpCode::X as u8`: the enum discriminant (source order, from 0). -/
def toByte : OpCode → Nat
  | .OpConstant => 0
  | .OpAdd => 1
  | .OpSubtract => 2
  | .OpMultiply => 3
  | .OpDivide => 4
  | .OpNegate => 5
  | .OpPrint => 6
  | .OpReturn => 7
  | .OpTrue => 8
  | .OpFalse => 9
  | .OpNot => 10
  | .OpEqualEqual => 11
  | .OpBangEqual => 12
  | .OpLess => 13
  | .OpLessEqual => 14
  | .OpGreater => 15
  | .OpGreaterEqual => 16
  | .OpDefineGlobal => 17
  | .OpGetGlobal => 18
  | .OpSetGlobal => 19
  | .OpPop => 20
  | .OpPopN => 21
  | .OpGetLocal => 22
  | .OpSetLocal => 23
  | .OpJump => 24
  | .OpJumpIfTrue => 25
  | .OpJumpIfFalse => 26
  | .OpLoop => 27
  | .OpCall => 28
  | .OpEof => 29

/-- Function `TryFrom<u8> for OpCode` from chunk.rs: compare the byte against
each discriminant in source order. -/
def try_from (v : Nat) : Option OpCode :=
  if v = toByte .OpConstant then some .OpConstant
  else if v = toByte .OpAdd then some .OpAdd
  else if v = toByte .OpSubtract then some .OpSubtract
  else if v = toByte .OpMultiply then some .OpMultiply
  else if v = toByte .OpDivide then some .OpDivide
  else if v = toByte .OpNegate then some .OpNegate
  else if v = toByte .OpPrint then some .OpPrint
  else if v = toByte .OpReturn then some .OpReturn
  else if v = toByte .OpTrue then some .OpTrue
  else if v = toByte .OpFalse then some .OpFalse
  else if v = toByte .OpNot then some .OpNot
  else if v = toByte .OpEqualEqual then some .OpEqualEqual
  else if v = toByte .OpBangEqual then some .OpBangEqual
  else if v = toByte .OpLess then some .OpLess
  else if v = toByte .OpLessEqual then some .OpLessEqual
  else if v = toByte .OpGreater then some .OpGreater
  else if v = toByte .OpGreaterEqual then some .OpGreaterEqual
  else if v = toByte .OpDefineGlobal then some .OpDefineGlobal
  else if v = toByte .OpGetGlobal then some .OpGetGlobal
  else if v = toByte .OpSetGlobal then some .OpSetGlobal
  else if v = toByte .OpPop then some .OpPop
  else if v = toByte .OpPopN then some .OpPopN
  else if v = toByte .OpGetLocal then some .OpGetLocal
  else if v = toByte .OpSetLocal then some .OpSetLocal
  else if v = toByte .OpJump then some .OpJump
  else if v = toByte .OpJumpIfTrue then some .OpJumpIfTrue
  else if v = toByte .OpJumpIfFalse then some .OpJumpIfFalse
  else if v = toByte .OpLoop then some .OpLoop
  else if v = toByte .OpCall then some .OpCall
  else if v = toByte .OpEof then some .OpEof
  else none

end OpCode

/--
Runtime value from value.rs.  `Function` inlines its payload
(value.rs `Function { arity, chunk: Rc<RefCell<Chunk>>, name }` with
chunk.rs `Chunk { code, constants, line_info }`): sharing through `Rc` is
by-value for `PartialEq`, so inlining preserves equality.  `NativeFunction`
carries `arity` and `name`; its `implementation` field is a single-variant
enum (`NativeClock`), equal on every pair, and is therefore omitted.
-/
inductive Value where
  | Number (x : F64)
  | Boolean (b : Bool)
  | Str (s : String)
  | Function (arity : Nat) (code : List Nat) (constants : List Value)
      (line_info : LineInfo) (name : String)
  | NativeFunction (arity : Nat) (name : String)

mutual

/-- Derived `PartialEq::eq` on `Value` (value.rs `#[derive(PartialEq)]`):
variant-wise structural comparison, with `f64` equality on `Number` payloads
(hence not reflexive at NaN) and field-order comparison on `Function`
(arity, chunk code, chunk constants, chunk line table, name). -/
def valueBeq : Value → Value → Bool
  | .Number a, .Number b => f64Beq a b
  | .Boolean a, .Boolean b => a == b
  | .Str a, .Str b => a == b
  | .Function ar1 c1 k1 l1 n1, .Function ar2 c2 k2 l2 n2 =>
    ar1 == ar2 && c1 == c2 && valuesBeq k1 k2 && decide (l1 = l2) && n1 == n2
  | .NativeFunction ar1 n1, .NativeFunction ar2 n2 => ar1 == ar2 && n1 == n2
  | _, _ => false

/-- Element-wise `PartialEq::eq` on `Vec<Value>` (the constant pool). -/
def valuesBeq : List Value → List Value → Bool
  | [], [] => true
  | x :: xs, y :: ys => valueBeq x y && valuesBeq xs ys
  | _, _ => false

end

/-- Derived `PartialEq::ne` on `Value`: the negation of `eq` (the Rust
default, also what IEEE-754 `!=` computes on the `Number` payloads). -/
def valueBneq (a b : Value) : Bool := !valueBeq a b

mutual

/-- Predicate: no NaN `Number` payload occurs anywhere in the value,
including inside the constant pools of nested functions. -/
def nanFree : Value → Bool
  | .Number x => !x.isNaN
  | .Boolean _ => true
  | .Str _ => true
  | .Function _ _ k _ _ => nanFreeList k
  | .NativeFunction _ _ => true

/-- List version of `nanFree` for constant pools. -/
def nanFreeList : List Value → Bool
  | [] => true
  | x :: xs => nanFree x && nanFreeList xs

end

namespace Value

/-- Function `Value::is_falsey` from value.rs: a Number is falsey iff it
equals `0.0` (IEEE comparison, so NaN is truthy), a Boolean iff false, a
String iff empty; functions are never falsey. -/
def is_falsey : Value → Bool
  | .Number n => !n.isNaN && decide (n.val = 0)
  | .Boolean b => !b
  | .Str s => s == ""
  | .Function _ _ _ _ _ => false
  | .NativeFunction _ _ => false

/-- Function `Value::is_truthy` from value.rs. -/
def is_truthy (v : Value) : Bool := !v.is_falsey

end Value

/-- Function `get_clock_native_func` from value.rs: a NativeFunction named
"clock" with arity 0 (implementation `NativeClock`). -/
def get_clock_native_func : Value := .NativeFunction 0 ("clock")

/-- Call frame from vm.rs: `ip` is a byte offset into the chunk of the
function found at `stack[slots_start_index]`. -/
structure CallFrame where
  ip : Nat
  slots_start_index : Nat
deriving DecidableEq

/-- VM state from vm.rs (`struct VM`): frame stack, index of the current
frame, value stack (list head = stack bottom, `Vec::push` appends at the
end), and the globals map as an association list. -/
structure VMState where
  frames : List CallFrame
  current_frame_index : Nat
  stack : List Value
  globals : List (String × Value)

/-- Function `VM::get_chunk` from vm.rs: resolve the current frame, read the
value at its `slots_start_index`, and expect a Function, whose chunk
(code, constants, line table) is returned.  `Except.error` models the Rust
panics (out-of-bounds indexing, non-function value). -/
def get_chunk (s : VMState) : Except String (List Nat × List Value × LineInfo) :=
  match s.frames[s.current_frame_index]? with
  | none => .error ("frame index out of bounds")
  | some frame =>
    match s.stack[frame.slots_start_index]? with
    | some (.Function _ code constants li _) => .ok (code, constants, li)
    | some _ => .error ("Tried to get chunk of non function")
    | none => .error ("stack index out of bounds")

/-- Function `VM::read_byte` from vm.rs: read `code[ip]` of the current
chunk, then advance the current frame's `ip` by one. -/
def read_byte (s : VMState) : Except String (Nat × VMState) :=
  match s.frames[s.current_frame_index]? with
  | none => .error ("frame index out of bounds")
  | some frame =>
    match get_chunk s with
    | .error e => .error e
    | .ok (code, _, _) =>
      match code[frame.ip]? with
      | none => .error ("code index out of bounds")
      | some b =>
        .ok (b, { s with
          frames := s.frames.set s.current_frame_index ⟨frame.ip + 1, frame.slots_start_index⟩ })

/-- Function `VM::read_short` from vm.rs: two `read_byte`s combined
big-endian, `(x << 8) | y`. -/
def read_short (s : VMState) : Except String (Nat × VMState) :=
  match read_byte s with
  | .error e => .error e
  | .ok (x, s1) =>
    match read_byte s1 with
    | .error e => .error e
    | .ok (y, s2) => .ok ((x <<< 8) ||| y, s2)

/-- Function `VM::read_constant` from vm.rs: read an operand byte, then index
the constant pool with it (out of bounds is a Rust panic). -/
def read_constant (s : VMState) : Except String (Value × VMState) :=
  match read_byte s with
  | .error e => .error e
  | .ok (b, s1) =>
    match get_chunk s1 with
    | .error e => .error e
    | .ok (_, constants, _) =>
      match constants[b]? with
      | none => .error ("constant index out of bounds")
      | some v => .ok (v, s1)

/-- Function `VM::push` from vm.rs: `Vec::push`, append at the stack top. -/
def push (s : VMState) (v : Value) : VMState := { s with stack := s.stack ++ [v] }

/-- Function `VM::peek` from vm.rs: `stack[stack.len() - 1 - offset]`; the
`usize` subtraction underflows (panics) when `offset ≥ stack.len()`. -/
def peek (s : VMState) (offset : Nat) : Except String Value :=
  if offset < s.stack.length then
    match s.stack[s.stack.length - 1 - offset]? with
    | some v => .ok v
    | none => .error ("stack index out of bounds")
  else .error ("attempt to subtract with overflow")

/-- Function `VM::pop` from vm.rs: `Vec::pop` with an `expect` on empty. -/
def pop (s : VMState) : Except String (Value × VMState) :=
  match s.stack.getLast? with
  | none => .error ("Tried to pop on empty stack")
  | some v => .ok (v, { s with stack := s.stack.dropLast })

/-- Function `VM::pop_n` from vm.rs: truncate to `stack.len() - n`
(underflow panics). -/
def pop_n (s : VMState) (n : Nat) : Except String VMState :=
  if n ≤ s.stack.length then .ok { s with stack := s.stack.take (s.stack.length - n) }
  else .error ("attempt to subtract with overflow")

/-- Function `VM::get_local` from vm.rs: read
`stack[index + slots_start_index]` — the operand byte plus the current
frame's base. -/
def get_local (s : VMState) (index : Nat) : Except String Value :=
  match s.frames[s.current_frame_index]? with
  | none => .error ("frame index out of bounds")
  | some frame =>
    match s.stack[index + frame.slots_start_index]? with
    | none => .error ("stack index out of bounds")
    | some v => .ok v

/-- Function `VM::runtime_error` from vm.rs: look up the source line for
`ip - 1` in the current chunk's line table and format
`"msg\n[line N] in script"`.  The Rust method also clears the value stack;
the VM stops right after, so the cleared stack is never observed and is not
carried here.  `Except.error` models the panics (`ip` underflow at 0,
`Chunk::get_lineno`'s `expect`). -/
def runtime_error (s : VMState) (msg : String) : Except String String :=
  match s.frames[s.current_frame_index]? with
  | none => .error ("frame index out of bounds")
  | some frame =>
    match get_chunk s with
    | .error e => .error e
    | .ok (_, _, li) =>
      if frame.ip = 0 then .error ("attempt to subtract with overflow")
      else
        match li.get_lineno (frame.ip - 1) with
        | none => .error ("Couldn\x27t retrieve lineno for offset " ++ toString (frame.ip - 1))
        | some lineno => .ok (msg ++ "\n[line " ++ toString lineno ++ "] in script")

/-- HashMap insert on the association-list model of the globals map:
replace an existing binding of the key or append a fresh one. -/
def insertGlobal : List (String × Value) → String → Value → List (String × Value)
  | [], k, v => [(k, v)]
  | (k0, v0) :: rest, k, v =>
    if k0 = k then (k, v) :: rest else (k0, v0) :: insertGlobal rest k v

/-- HashMap get on the association-list model of the globals map. -/
def lookupGlobal : List (String × Value) → String → Option Value
  | [], _ => none
  | (k0, v0) :: rest, k => if k0 = k then some v0 else lookupGlobal rest k

/-- HashMap contains_key on the association-list model of the globals map. -/
def containsGlobal (g : List (String × Value)) (k : String) : Bool :=
  (lookupGlobal g k).isSome

/-- Result of one iteration of `VM::run`'s dispatch loop: `ok` continues the
loop, `done` is `return Ok(())` (OpEof), `err` is a propagated
`RuntimeError` (the `Err(...)?` pattern), `crash` is a Rust panic
(`todo!()`, `expect`, `unwrap`, out-of-bounds indexing, `usize`
underflow). -/
inductive Outcome where
  | ok (s : VMState)
  | done (s : VMState)
  | err (msg : String)
  | crash (msg : String)

/-- The `binary_op!` macro from vm.rs: pop `b` then `a`; on two Numbers push
`valueType(a op b)`, otherwise the runtime error "Operands must be
numbers". -/
def binary_op (s : VMState) (f : F64 → F64 → Value) : Outcome :=
  match pop s with
  | .error e => .crash e
  | .ok (b, s1) =>
    match pop s1 with
    | .error e => .crash e
    | .ok (a, s2) =>
      match a, b with
      | .Number x, .Number y => .ok (push s2 (f x y))
      | _, _ =>
        match runtime_error s2 ("Operands must be numbers") with
        | .error e => .crash e
        | .ok m => .err m

/-- One iteration of the dispatch loop in `VM::run` from vm.rs: read the
opcode byte (`try_into().unwrap()` on an unknown byte is a crash), then
perform the instruction's effect. -/
def step (s0 : VMState) : Outcome :=
  match read_byte s0 with
  | .error e => .crash e
  | .ok (instr_byte, s1) =>
    match OpCode.try_from instr_byte with
    | none => .crash ("unknown opcode")
    | some instruction =>
      match instruction with
      | .OpConstant =>
        match read_constant s1 with
        | .error e => .crash e
        | .ok (constant, s2) => .ok (push s2 constant)
      | .OpNegate =>
        match pop s1 with
        | .error e => .crash e
        | .ok (value, s2) =>
          match value with
          | .Number number => .ok (push s2 (.Number (f64neg number)))
          | _ =>
            match runtime_error s2 ("Operand must be a number") with
            | .error e => .crash e
            | .ok m => .err m
      | .OpAdd =>
        match pop s1 with
        | .error e => .crash e
        | .ok (b, s2) =>
          match pop s2 with
          | .error e => .crash e
          | .ok (a, s3) =>
            match a, b with
            | .Number x, .Number y => .ok (push s3 (.Number (f64add x y)))
            | .Str x, .Str y => .ok (push s3 (.Str (x ++ y)))
            | _, _ =>
              match runtime_error s3 ("Operands must be two numbers or two strings") with
              | .error e => .crash e
              | .ok m => .err m
      | .OpSubtract => binary_op s1 (fun x y => .Number (f64sub x y))
      | .OpMultiply => binary_op s1 (fun x y => .Number (f64mul x y))
      | .OpDivide => binary_op s1 (fun x y => .Number (f64div x y))
      | .OpEqualEqual =>
        match pop s1 with
        | .error e => .crash e
        | .ok (b, s2) =>
          match pop s2 with
          | .error e => .crash e
          | .ok (a, s3) => .ok (push s3 (.Boolean (valueBeq a b)))
      | .OpBangEqual =>
        match pop s1 with
        | .error e => .crash e
        | .ok (b, s2) =>
          match pop s2 with
          | .error e => .crash e
          | .ok (a, s3) => .ok (push s3 (.Boolean (valueBneq a b)))
      | .OpLess => binary_op s1 (fun x y => .Boolean (f64lt x y))
      | .OpLessEqual => binary_op s1 (fun x y => .Boolean (f64le x y))
      | .OpGreater => binary_op s1 (fun x y => .Boolean (f64gt x y))
      | .OpGreaterEqual => binary_op s1 (fun x y => .Boolean (f64ge x y))
      | .OpReturn =>
        match pop s1 with
        | .error e => .crash e
        | .ok (result, s2) =>
          match s2.frames.getLast? with
          | none => .crash ("Tried to pop on empty stackframe")
          | some frame =>
            let s3 : VMState := { s2 with frames := s2.frames.dropLast }
            if s3.current_frame_index = 0 then .crash ("attempt to subtract with overflow")
            else
              let s4 : VMState := { s3 with current_frame_index := s3.current_frame_index - 1 }
              .ok { s4 with stack := s4.stack.take frame.slots_start_index ++ [result] }
      | .OpTrue => .ok (push s1 (.Boolean true))
      | .OpFalse => .ok (push s1 (.Boolean false))
      | .OpNot =>
        match pop s1 with
        | .error e => .crash e
        | .ok (value, s2) =>
          match value with
          | .Boolean b => .ok (push s2 (.Boolean !b))
          | _ =>
            match runtime_error s2 ("Operand must be a boolean") with
            | .error e => .crash e
            | .ok m => .err m
      | .OpPrint =>
        match pop s1 with
        | .error e => .crash e
        | .ok (_, s2) => .ok s2
      | .OpDefineGlobal =>
        match pop s1 with
        | .error e => .crash e
        | .ok (value, s2) =>
          match read_constant s2 with
          | .error e => .crash e
          | .ok (constant, s3) =>
            match constant with
            | .Str name => .ok { s3 with globals := insertGlobal s3.globals name value }
            | _ =>
              match runtime_error s3 ("Expected string constant") with
              | .error e => .crash e
              | .ok m => .err m
      | .OpGetGlobal =>
        match read_constant s1 with
        | .error e => .crash e
        | .ok (constant, s2) =>
          match constant with
          | .Str name =>
            match lookupGlobal s2.globals name with
            | some value => .ok (push s2 value)
            | none =>
              match runtime_error s2 ("Undefined variable \x27" ++ name ++ "\x27") with
              | .error e => .crash e
              | .ok m => .err m
          | _ =>
            match runtime_error s2 ("Expected string constant") with
            | .error e => .crash e
            | .ok m => .err m
      | .OpSetGlobal =>
        match read_constant s1 with
        | .error e => .crash e
        | .ok (constant, s2) =>
          match constant with
          | .Str name =>
            if containsGlobal s2.globals name then
              match peek s2 0 with
              | .error e => .crash e
              | .ok v => .ok { s2 with globals := insertGlobal s2.globals name v }
            else
              match runtime_error s2 ("Cannot assign undefined variable " ++ name ++ ".") with
              | .error e => .crash e
              | .ok m => .err m
          | _ =>
            match runtime_error s2 ("Expected string constant") with
            | .error e => .crash e
            | .ok m => .err m
      | .OpPop =>
        match pop s1 with
        | .error e => .crash e
        | .ok (_, s2) => .ok s2
      | .OpPopN =>
        match read_byte s1 with
        | .error e => .crash e
        | .ok (nb_elems_to_pop, s2) =>
          match pop_n s2 nb_elems_to_pop with
          | .error e => .crash e
          | .ok s3 => .ok s3
      | .OpGetLocal =>
        match read_byte s1 with
        | .error e => .crash e
        | .ok (local_index, s2) =>
          match get_local s2 local_index with
          | .error e => .crash e
          | .ok local_value => .ok (push s2 local_value)
      | .OpSetLocal =>
        match read_byte s1 with
        | .error e => .crash e
        | .ok (local_index, s2) =>
          match peek s2 0 with
          | .error e => .crash e
          | .ok v =>
            if local_index < s2.stack.length then
              .ok { s2 with stack := s2.stack.set local_index v }
            else .crash ("stack index out of bounds")
      | .OpJump =>
        match read_short s1 with
        | .error e => .crash e
        | .ok (jump, s2) =>
          match s2.frames[s2.current_frame_index]? with
          | none => .crash ("frame index out of bounds")
          | some frame =>
            .ok { s2 with frames :=
                    s2.frames.set s2.current_frame_index ⟨frame.ip + jump, frame.slots_start_index⟩ }
      | .OpJumpIfTrue =>
        match peek s1 0 with
        | .error e => .crash e
        | .ok cond =>
          match read_short s1 with
          | .error e => .crash e
          | .ok (jump, s2) =>
            if cond.is_truthy then
              match s2.frames[s2.current_frame_index]? with
              | none => .crash ("frame index out of bounds")
              | some frame =>
                .ok { s2 with frames :=
                        s2.frames.set s2.current_frame_index ⟨frame.ip + jump, frame.slots_start_index⟩ }
            else .ok s2
      | .OpJumpIfFalse =>
        match peek s1 0 with
        | .error e => .crash e
        | .ok cond =>
          match read_short s1 with
          | .error e => .crash e
          | .ok (jump, s2) =>
            if cond.is_falsey then
              match s2.frames[s2.current_frame_index]? with
              | none => .crash ("frame index out of bounds")
              | some frame =>
                .ok { s2 with frames :=
                        s2.frames.set s2.current_frame_index ⟨frame.ip + jump, frame.slots_start_index⟩ }
            else .ok s2
      | .OpLoop =>
        match read_short s1 with
        | .error e => .crash e
        | .ok (jump, s2) =>
          match s2.frames[s2.current_frame_index]? with
          | none => .crash ("frame index out of bounds")
          | some frame =>
            if jump ≤ frame.ip then
              .ok { s2 with frames :=
                      s2.frames.set s2.current_frame_index ⟨frame.ip - jump, frame.slots_start_index⟩ }
            else .crash ("attempt to subtract with overflow")
      | .OpCall =>
        match read_byte s1 with
        | .error e => .crash e
        | .ok (nb_args, s2) =>
          match peek s2 nb_args with
          | .error e => .crash e
          | .ok callee =>
            match callee with
            | .Function arity _ _ _ _ =>
              if arity + 1 ≤ s2.stack.length then
                .ok { s2 with
                  frames := s2.frames ++ [⟨0, s2.stack.length - arity - 1⟩],
                  current_frame_index := s2.current_frame_index + 1 }
              else .crash ("attempt to subtract with overflow")
            | _ => .crash ("not yet implemented")
      | .OpEof => .done s1

/-- Function `VM::new` from vm.rs: one initial frame `{ ip: 0,
slots_start_index: 0 }`, the script function as the only stack slot, and an
empty globals map (`HashMap::new()`).  The function's fields are passed
inline (value.rs `Function { arity, chunk, name }`). -/
def VM.new (arity : Nat) (code : List Nat) (constants : List Value)
    (line_info : LineInfo) (name : String) : VMState :=
  { frames := [⟨0, 0⟩]
    current_frame_index := 0
    stack := [.Function arity code constants line_info name]
    globals := [] }

/-- Iterate `step` while the loop continues (`ok`); stop on `done`, `err` or
`crash`. -/
def stepN : Nat → VMState → Outcome
  | 0, s => .ok s
  | n + 1, s =>
    match step s with
    | .ok s1 => stepN n s1
    | o => o

/-
  Compiler embedding (src/compiler.rs with the AST of src/ast.rs and the
  tokens of src/token.rs).  compiler.rs targets a snapshot of value.rs
  whose `Function` has `Function::new()` without arguments and
  `name : Option<String>` (and no arity handling); that snapshot is not
  under src/, so the compiler side carries its own `CValue` /
  `Chunk` / `Function` types mirroring the fields compiler.rs uses.
  Compile errors (`Err(String)`) and compiler-side Rust panics
  (`todo!()`, `expect`, `unwrap`) are both modelled as `Except.error`;
  the messages keep them apart and no claim depends on the distinction.
-/

/-- Token kind enum from token.rs. -/
inductive TokenType where
  | LeftParen
  | RightParen
  | LeftBrace
  | RightBrace
  | Comma
  | Dot
  | Minus
  | Plus
  | Semicolon
  | Slash
  | Star
  | Bang
  | BangEqual
  | Equal
  | EqualEqual
  | Greater
  | GreaterEqual
  | Less
  | LessEqual
  | Identifier (s : String)
  | Number (x : F64)
  | Str (s : String)
  | And
  | Not
  | Struct
  | Else
  | False
  | Fun
  | For
  | If
  | Null
  | Or
  | Return
  | Super
  | Slf
  | True
  | Let
  | While
  | Eof
deriving DecidableEq

/-- Token from token.rs: kind, lexeme, line. -/
structure Token where
  typ : TokenType
  lexeme : String
  line : Nat
deriving DecidableEq

/-- Literal expression from ast.rs. -/
inductive Literal where
  | Number (x : F64)
  | Str (s : String)
  | True
  | False
  | Null
deriving DecidableEq

/-- Struct `Variable` from ast.rs. -/
structure Variable where
  name : Token
deriving DecidableEq

mutual

/-- Expression from ast.rs. -/
inductive Expr where
  | Literal (l : Literal)
  | Unary (u : Unary)
  | Binary (b : Binary)
  | Call (c : Call)
  | Grouping (g : Grouping)
  | Variable (v : Variable)
  | Assignment (a : Assignment)
  | Logical (l : Logical)
  | Get (g : Get)
  | Set (s : Set)

/-- Struct `Unary` from ast.rs. -/
inductive Unary where
  | mk (operator : Token) (right : Expr)

/-- Struct `Binary` from ast.rs. -/
inductive Binary where
  | mk (left : Expr) (operator : Token) (right : Expr)

/-- Struct `Call` from ast.rs. -/
inductive Call where
  | mk (callee : Expr) (paren : Token) (arguments : List Expr)

/-- Struct `Grouping` from ast.rs. -/
inductive Grouping where
  | mk (expression : Expr)

/-- Struct `Assignment` from ast.rs. -/
inductive Assignment where
  | mk (name : Token) (value : Expr)

/-- Struct `Logical` from ast.rs. -/
inductive Logical where
  | mk (left : Expr) (operator : Token) (right : Expr)

/-- Struct `Get` from ast.rs. -/
inductive Get where
  | mk (object : Expr) (name : Token)

/-- Struct `Set` from ast.rs (property set; unsupported by the compiler). -/
inductive Set where
  | mk (object : Expr) (name : Token) (value : Expr)

end

/-- Struct `LetDecl` from ast.rs. -/
inductive LetDecl where
  | mk (identifier : Token) (initializer : Option Expr)

/-- Struct `ReturnStmt` from ast.rs: the `return` token and the optional
returned expression. -/
inductive ReturnStmt where
  | mk (token : Token) (expr : Option Expr)

mutual

/-- Statement from ast.rs. -/
inductive Statement where
  | ExprStmt (e : Expr)
  | IfStmt (i : IfStmt)
  | PrintStmt (e : Expr)
  | ReturnStmt (r : ReturnStmt)
  | WhileStmt (w : WhileStmt)
  | Block (decls : List DeclarationWithLineNo)

/-- Struct `IfStmt` from ast.rs. -/
inductive IfStmt where
  | mk (condition : Expr) (then_branch : Statement) (else_branch : Option Statement)

/-- Struct `WhileStmt` from ast.rs. -/
inductive WhileStmt where
  | mk (condition : Expr) (body : Statement)

/-- Declaration from ast.rs. -/
inductive Declaration where
  | FunDecl (f : FunDecl)
  | LetDecl (l : LetDecl)
  | Statement (s : Statement)

/-- Struct `FunDecl` from ast.rs. -/
inductive FunDecl where
  | mk (name : Token) (params : List Token) (body : List DeclarationWithLineNo)

/-- Struct `DeclarationWithLineNo` from ast.rs. -/
inductive DeclarationWithLineNo where
  | mk (decl : Declaration) (lineno : Nat)

end

/-- Struct `Program` from ast.rs. -/
structure Program where
  declarations : List DeclarationWithLineNo

/-- Compile-time value as used by compiler.rs (the value.rs snapshot that
compiler.rs targets is not under src/; fields are those compiler.rs reads
and writes: `Value::Number`, `Value::Str`, `Value::Function` over a
function with a chunk and `name : Option<String>`).  The `Function`
payload inlines the chunk fields. -/
inductive CValue where
  | Number (x : F64)
  | Boolean (b : Bool)
  | Str (s : String)
  | Function (code : List Nat) (constants : List CValue) (line_info : LineInfo)
      (name : Option String)

/-- Chunk from chunk.rs as the compiler uses it: byte code, constant pool,
line table. -/
structure Chunk where
  code : List Nat
  constants : List CValue
  line_info : LineInfo

namespace Chunk

/-- Function `Chunk::new` from chunk.rs. -/
def new : Chunk := ⟨[], [], LineInfo.new⟩

/-- Function `Chunk::count` from chunk.rs: `code.len()`. -/
def count (c : Chunk) : Nat := c.code.length

/-- Function `Chunk::write` from chunk.rs: push the byte, then record
`(count() - 1, lineno)` in the line table. -/
def write (c : Chunk) (op_code : Nat) (lineno : Nat) : Chunk :=
  let code := c.code ++ [op_code]
  { c with code := code, line_info := c.line_info.add (code.length - 1) lineno }

/-- Function `Chunk::replace_at` from chunk.rs: `code[write_index] = op_code`.
Rust panics when the index is out of bounds; `List.set` is a no-op there,
and every use in this development is guarded in bounds. -/
def replace_at (c : Chunk) (op_code : Nat) (write_index : Nat) : Chunk :=
  { c with code := c.code.set write_index op_code }

/-- Function `Chunk::add_constant` from chunk.rs: push the value and return
its index; the `try_into().expect(...)` panics when the index exceeds a
byte. -/
def add_constant (c : Chunk) (v : CValue) : Except String (Chunk × Nat) :=
  if c.constants.length ≤ 255 then
    .ok ({ c with constants := c.constants ++ [v] }, c.constants.length)
  else .error ("Constant index didn\x27t fit in byte")

end Chunk

/-- Function object as compiler.rs uses it: a chunk plus an optional
name. -/
structure Function where
  chunk : Chunk
  name : Option String

/-- Enum `FunctionType` from compiler.rs. -/
inductive FunctionType where
  | Function (name : String)
  | Script

/-- Struct `Local` from compiler.rs: the declaring token and its scope
depth. -/
structure Local where
  name : Token
  depth : Nat

/-- Struct `Compiler` from compiler.rs. -/
structure Compiler where
  current_line : Nat
  function : Function
  function_type : FunctionType
  locals : List Local
  scope_depth : Nat

namespace Compiler

/-- Function `Compiler::new` from compiler.rs: fresh chunk, name `<script>`
for the top level or the function's own name, empty locals, depth 0. -/
def new (function_type : FunctionType) : Compiler :=
  { current_line := 0
    function :=
      { chunk := Chunk.new
        name := match function_type with
          | .Function name => some name
          | .Script => some ("<script>") }
    function_type := function_type
    locals := []
    scope_depth := 0 }

/-- Function `Compiler::report_error` from compiler.rs. -/
def report_error (c : Compiler) (message : String) : String :=
  "Compilation error: " ++ message ++ "\nat line " ++ toString c.current_line

/-- Function `Compiler::emit_byte` from compiler.rs: write the byte to the
current chunk at the current line. -/
def emit_byte (c : Compiler) (byte : Nat) : Compiler :=
  { c with function := { c.function with chunk := c.function.chunk.write byte c.current_line } }

/-- Function `Compiler::emit_bytes` from compiler.rs. -/
def emit_bytes (c : Compiler) (byte1 byte2 : Nat) : Compiler :=
  emit_byte (emit_byte c byte1) byte2

/-- Function `Compiler::make_constant` from compiler.rs. -/
def make_constant (c : Compiler) (v : CValue) : Except String (Compiler × Nat) :=
  match c.function.chunk.add_constant v with
  | .error e => .error e
  | .ok (chunk, idx) => .ok ({ c with function := { c.function with chunk := chunk } }, idx)

/-- Function `Compiler::emit_constant` from compiler.rs: add the constant
and emit `OP_CONSTANT idx`. -/
def emit_constant (c : Compiler) (v : CValue) : Except String Compiler :=
  match make_constant c v with
  | .error e => .error e
  | .ok (c1, idx) => .ok (emit_bytes c1 (OpCode.toByte .OpConstant) idx)

/-- Function `Compiler::emit_jump` from compiler.rs: emit the instruction
plus two zero placeholder bytes; return `count() - 2`, the offset of the
first placeholder. -/
def emit_jump (c : Compiler) (instruction : Nat) : Compiler × Nat :=
  let c1 := emit_byte c instruction
  let c2 := emit_byte c1 0
  let c3 := emit_byte c2 0
  (c3, c3.function.chunk.count - 2)

/-- Function `Compiler::patch_jump` from compiler.rs: compute
`jump = count() - offset - 2` and overwrite the two placeholder bytes with
its big-endian halves `jump >> 8 & 0xff` and `jump & 0xff`. -/
def patch_jump (c : Compiler) (offset : Nat) : Compiler :=
  let jump := c.function.chunk.count - offset - 2
  let c1 := { c with function :=
    { c.function with chunk := c.function.chunk.replace_at ((jump >>> 8) % 256) offset } }
  { c1 with function :=
    { c1.function with chunk := c1.function.chunk.replace_at (jump % 256) (offset + 1) } }

/-- Function `Compiler::emit_loop` from compiler.rs: emit `OP_LOOP`, then the
big-endian halves of `count() - start_loop + 2` (measured after the opcode
byte, before the operand bytes); returns `count() - 2`. -/
def emit_loop (c : Compiler) (start_loop : Nat) : Compiler × Nat :=
  let c1 := emit_byte c (OpCode.toByte .OpLoop)
  let loop_size := c1.function.chunk.count - start_loop + 2
  let c2 := emit_byte c1 ((loop_size >>> 8) % 256)
  let c3 := emit_byte c2 (loop_size % 256)
  (c3, c3.function.chunk.count - 2)

/-- Function `Compiler::identifiers_equal` from compiler.rs: lexeme
comparison. -/
def identifiers_equal (first second : Token) : Bool :=
  first.lexeme == second.lexeme

/-- Loop body of `Compiler::resolve_local` from compiler.rs: walk the locals
from the top of the locals stack down (`i` counts how many entries remain
below), returning the index of the first lexeme match. -/
def resolveLocalGo (locals : List Local) (name : Token) : Nat → Option Nat
  | 0 => none
  | i + 1 =>
    match locals[i]? with
    | some l => if identifiers_equal l.name name then some i else resolveLocalGo locals name i
    | none => resolveLocalGo locals name i

/-- Function `Compiler::resolve_local` from compiler.rs: index of the
innermost local whose name matches, if any. -/
def resolve_local (c : Compiler) (name : Token) : Option Nat :=
  resolveLocalGo c.locals name c.locals.length

/-- Loop body of `Compiler::add_local` from compiler.rs: scanning from the
top of the locals stack, stop at the first local of an outer scope, and
report whether a same-scope local with the same name exists. -/
def conflictGo (depth : Nat) (name : Token) : List Local → Bool
  | [] => false
  | l :: rest =>
    if l.depth < depth then false
    else if identifiers_equal l.name name then true
    else conflictGo depth name rest

/-- Function `Compiler::add_local` from compiler.rs: error when a local with
the same name exists at the current scope depth, otherwise push a new
`Local`. -/
def add_local (c : Compiler) (name : Token) : Except String Compiler :=
  if conflictGo c.scope_depth name c.locals.reverse then
    .error (report_error c
      ("Already a variable with the name " ++ name.lexeme ++ " in this scope"))
  else .ok { c with locals := c.locals ++ [{ name := name, depth := c.scope_depth }] }

/-- Function `Compiler::literal` from compiler.rs: numbers and strings
become constants, `true`/`false` dedicated opcodes; `Literal::Null` is
`todo!()`. -/
def literal (c : Compiler) (l : Literal) : Except String Compiler :=
  match l with
  | .Number number => emit_constant c (.Number number)
  | .Str s => emit_constant c (.Str s)
  | .True => .ok (emit_byte c (OpCode.toByte .OpTrue))
  | .False => .ok (emit_byte c (OpCode.toByte .OpFalse))
  | .Null => .error ("not yet implemented")

/-- Function `Compiler::return_statement` from compiler.rs: emit the single
`OP_RETURN` byte (and nothing else). -/
def return_statement (c : Compiler) : Except String Compiler :=
  .ok (emit_byte c (OpCode.toByte .OpReturn))

/-- Function `Compiler::variable` from compiler.rs (named `variableExpr`
here because `variable` is reserved in Lean): a resolved local emits
`OP_GET_LOCAL index`, otherwise the lexeme becomes a string constant and
`OP_GET_GLOBAL` is emitted. -/
def variableExpr (c : Compiler) (v : Variable) : Except String Compiler :=
  match resolve_local c v.name with
  | some index =>
    if index ≤ 255 then .ok (emit_bytes c (OpCode.toByte .OpGetLocal) index)
    else .error ("local index didn\x27t fit in byte")
  | none =>
    match make_constant c (.Str v.name.lexeme) with
    | .error e => .error e
    | .ok (c1, constant) => .ok (emit_bytes c1 (OpCode.toByte .OpGetGlobal) constant)

end Compiler

mutual

/-- Function `Compiler::declaration` from compiler.rs: record the line
number, then dispatch on the declaration kind. -/
def Compiler.declaration (c : Compiler) (d : DeclarationWithLineNo) : Except String Compiler :=
  match d with
  | .mk inner_decl lineno =>
    let c1 := { c with current_line := lineno }
    match inner_decl with
    | .FunDecl f => Compiler.fun_decl c1 f
    | .LetDecl l => Compiler.let_decl c1 l
    | .Statement s => Compiler.statement c1 s
termination_by (sizeOf d, 0)

/-- Function `Compiler::statement` from compiler.rs: dispatch on the
statement kind; an expression statement is compiled and then popped; a
return statement discards its expression (`Statement::ReturnStmt(_)`)
and only calls `return_statement`. -/
def Compiler.statement (c : Compiler) (st : Statement) : Except String Compiler :=
  match st with
  | .ExprStmt e =>
    match Compiler.expression c e with
    | .error m => .error m
    | .ok c1 => .ok (Compiler.emit_byte c1 (OpCode.toByte .OpPop))
  | .IfStmt i => Compiler.if_statement c i
  | .PrintStmt e => Compiler.print_statement c e
  | .ReturnStmt _ => Compiler.return_statement c
  | .WhileStmt w => Compiler.while_statement c w
  | .Block ds => Compiler.block c ds
termination_by (sizeOf st, 0)

/-- Function `Compiler::if_statement` from compiler.rs: condition,
`JUMP_IF_FALSE` placeholder, `POP`, then-branch, `JUMP` placeholder, patch
the first jump, `POP`, optional else-branch, patch the second jump. -/
def Compiler.if_statement (c : Compiler) (i : IfStmt) : Except String Compiler :=
  match i with
  | .mk condition then_branch else_branch =>
    match Compiler.expression c condition with
    | .error m => .error m
    | .ok c1 =>
      let p1 := Compiler.emit_jump c1 (OpCode.toByte .OpJumpIfFalse)
      let c3 := Compiler.emit_byte p1.1 (OpCode.toByte .OpPop)
      match Compiler.statement c3 then_branch with
      | .error m => .error m
      | .ok c4 =>
        let p2 := Compiler.emit_jump c4 (OpCode.toByte .OpJump)
        let c6 := Compiler.patch_jump p2.1 p1.2
        let c7 := Compiler.emit_byte c6 (OpCode.toByte .OpPop)
        match else_branch with
        | some eb =>
          match Compiler.statement c7 eb with
          | .error m => .error m
          | .ok c8 => .ok (Compiler.patch_jump c8 p2.2)
        | none => .ok (Compiler.patch_jump c7 p2.2)
termination_by (sizeOf i, 0)

/-- Function `Compiler::while_statement` from compiler.rs: remember
`loop_start`, compile the condition, `JUMP_IF_FALSE` placeholder, `POP`,
body, `LOOP` back to `loop_start`, patch the exit jump, `POP`. -/
def Compiler.while_statement (c : Compiler) (w : WhileStmt) : Except String Compiler :=
  match w with
  | .mk condition body =>
    let loop_start := c.function.chunk.count
    match Compiler.expression c condition with
    | .error m => .error m
    | .ok c1 =>
      let p1 := Compiler.emit_jump c1 (OpCode.toByte .OpJumpIfFalse)
      let c3 := Compiler.emit_byte p1.1 (OpCode.toByte .OpPop)
      match Compiler.statement c3 body with
      | .error m => .error m
      | .ok c4 =>
        let c5 := (Compiler.emit_loop c4 loop_start).1
        let c6 := Compiler.patch_jump c5 p1.2
        .ok (Compiler.emit_byte c6 (OpCode.toByte .OpPop))
termination_by (sizeOf w, 0)

/-- Function `Compiler::print_statement` from compiler.rs. -/
def Compiler.print_statement (c : Compiler) (e : Expr) : Except String Compiler :=
  match Compiler.expression c e with
  | .error m => .error m
  | .ok c1 => .ok (Compiler.emit_byte c1 (OpCode.toByte .OpPrint))

/-- Function `Compiler::expression` from compiler.rs: dispatch on the
expression kind.  `Call` and `Get` are `todo!()`, `Set` is a reported
compile error. -/
def Compiler.expression (c : Compiler) (e : Expr) : Except String Compiler :=
  match e with
  | .Literal l => Compiler.literal c l
  | .Unary u => Compiler.unary c u
  | .Binary b => Compiler.binary c b
  | .Call _ => .error ("not yet implemented")
  | .Grouping g =>
    match g with
    | .mk inner => Compiler.expression c inner
  | .Variable v => Compiler.variableExpr c v
  | .Assignment a => Compiler.assignment c a
  | .Logical l => Compiler.logical c l
  | .Get _ => .error ("not yet implemented")
  | .Set _ => .error (Compiler.report_error c ("Set not supported"))
termination_by (sizeOf e, 0)

/-- Function `Compiler::unary` from compiler.rs: compile the operand, then
`NEGATE` for `-` and `NOT` for `not`; other operators are compile
errors. -/
def Compiler.unary (c : Compiler) (u : Unary) : Except String Compiler :=
  match u with
  | .mk operator right =>
    match operator.typ with
    | .Minus =>
      match Compiler.expression c right with
      | .error m => .error m
      | .ok c1 => .ok (Compiler.emit_byte c1 (OpCode.toByte .OpNegate))
    | .Not =>
      match Compiler.expression c right with
      | .error m => .error m
      | .ok c1 => .ok (Compiler.emit_byte c1 (OpCode.toByte .OpNot))
    | _ =>
      .error ("Unexpected unary operator: " ++ operator.lexeme
        ++ " at line " ++ toString operator.line)
termination_by (sizeOf u, 0)

/-- Function `Compiler::binary` from compiler.rs: compile left then right,
then the operator opcode. -/
def Compiler.binary (c : Compiler) (b : Binary) : Except String Compiler :=
  match b with
  | .mk left operator right =>
    match Compiler.expression c left with
    | .error m => .error m
    | .ok c1 =>
      match Compiler.expression c1 right with
      | .error m => .error m
      | .ok c2 =>
        match operator.typ with
        | .Minus => .ok (Compiler.emit_byte c2 (OpCode.toByte .OpSubtract))
        | .Plus => .ok (Compiler.emit_byte c2 (OpCode.toByte .OpAdd))
        | .Slash => .ok (Compiler.emit_byte c2 (OpCode.toByte .OpDivide))
        | .Star => .ok (Compiler.emit_byte c2 (OpCode.toByte .OpMultiply))
        | .EqualEqual => .ok (Compiler.emit_byte c2 (OpCode.toByte .OpEqualEqual))
        | .BangEqual => .ok (Compiler.emit_byte c2 (OpCode.toByte .OpBangEqual))
        | .Less => .ok (Compiler.emit_byte c2 (OpCode.toByte .OpLess))
        | .LessEqual => .ok (Compiler.emit_byte c2 (OpCode.toByte .OpLessEqual))
        | .Greater => .ok (Compiler.emit_byte c2 (OpCode.toByte .OpGreater))
        | .GreaterEqual => .ok (Compiler.emit_byte c2 (OpCode.toByte .OpGreaterEqual))
        | _ =>
          .error ("Unexpected binary operator: " ++ operator.lexeme
            ++ " at line " ++ toString operator.line)
termination_by (sizeOf b, 0)

/-- Function `Compiler::logical` from compiler.rs: short-circuit `and` via
`JUMP_IF_FALSE`, `or` via `JUMP_IF_TRUE`; the left value is popped only on
the path that evaluates the right operand. -/
def Compiler.logical (c : Compiler) (l : Logical) : Except String Compiler :=
  match l with
  | .mk left operator right =>
    match Compiler.expression c left with
    | .error m => .error m
    | .ok c1 =>
      match operator.typ with
      | .And =>
        let p := Compiler.emit_jump c1 (OpCode.toByte .OpJumpIfFalse)
        let c3 := Compiler.emit_byte p.1 (OpCode.toByte .OpPop)
        match Compiler.expression c3 right with
        | .error m => .error m
        | .ok c4 => .ok (Compiler.patch_jump c4 p.2)
      | .Or =>
        let p := Compiler.emit_jump c1 (OpCode.toByte .OpJumpIfTrue)
        let c3 := Compiler.emit_byte p.1 (OpCode.toByte .OpPop)
        match Compiler.expression c3 right with
        | .error m => .error m
        | .ok c4 => .ok (Compiler.patch_jump c4 p.2)
      | _ =>
        .error ("Unexpected logical operator: " ++ operator.lexeme
          ++ " at line " ++ toString operator.line)
termination_by (sizeOf l, 0)

/-- Function `Compiler::assignment` from compiler.rs: compile the
right-hand side, then `SET_LOCAL` for a resolved local and `SET_GLOBAL`
otherwise. -/
def Compiler.assignment (c : Compiler) (a : Assignment) : Except String Compiler :=
  match a with
  | .mk name value =>
    match Compiler.expression c value with
    | .error m => .error m
    | .ok c1 =>
      match Compiler.resolve_local c1 name with
      | some local_index =>
        if local_index ≤ 255 then
          .ok (Compiler.emit_bytes c1 (OpCode.toByte .OpSetLocal) local_index)
        else .error ("local index didn\x27t fit in byte")
      | none =>
        match Compiler.make_constant c1 (.Str name.lexeme) with
        | .error m => .error m
        | .ok (c2, constant) =>
          .ok (Compiler.emit_bytes c2 (OpCode.toByte .OpSetGlobal) constant)
termination_by (sizeOf a, 0)

/-- Function `Compiler::let_decl` from compiler.rs: a missing initializer is
an `expect` panic; compile the initializer, then register a local (inner
scope) or emit `DEFINE_GLOBAL` (top level). -/
def Compiler.let_decl (c : Compiler) (l : LetDecl) : Except String Compiler :=
  match l with
  | .mk identifier initializer =>
    match initializer with
    | none => .error ("Expected initializer to let declaration")
    | some init =>
      match Compiler.expression c init with
      | .error m => .error m
      | .ok c1 =>
        if c1.scope_depth > 0 then Compiler.add_local c1 identifier
        else
          match Compiler.make_constant c1 (.Str identifier.lexeme) with
          | .error m => .error m
          | .ok (c2, constant) =>
            .ok (Compiler.emit_bytes c2 (OpCode.toByte .OpDefineGlobal) constant)

/-- Function `Compiler::fun_decl` from compiler.rs: compile the body with a
fresh sub-compiler of kind `Function(name)` (the snapshot does not declare
the parameters), emit the resulting function as a constant, then register a
local (inner scope) or emit `DEFINE_GLOBAL` (top level). -/
def Compiler.fun_decl (c : Compiler) (f : FunDecl) : Except String Compiler :=
  match f with
  | .mk name _params body =>
    let sub := Compiler.new (.Function name.lexeme)
    match Compiler.runList sub body with
    | .error m => .error m
    | .ok sub1 =>
      match Compiler.emit_constant c
        (.Function sub1.function.chunk.code sub1.function.chunk.constants
          sub1.function.chunk.line_info sub1.function.name) with
      | .error m => .error m
      | .ok c1 =>
        if c1.scope_depth > 0 then Compiler.add_local c1 name
        else
          match Compiler.make_constant c1 (.Str name.lexeme) with
          | .error m => .error m
          | .ok (c2, constant) =>
            .ok (Compiler.emit_bytes c2 (OpCode.toByte .OpDefineGlobal) constant)
termination_by (sizeOf f, 0)

/-- Function `Compiler::block` from compiler.rs: bump the scope depth,
compile the contained declarations, restore the depth, pop the locals of
the closed scope (`POP` for one, `POPN n` for several). -/
def Compiler.block (c : Compiler) (ds : List DeclarationWithLineNo) : Except String Compiler :=
  let c1 := { c with scope_depth := c.scope_depth + 1 }
  match Compiler.declList c1 ds with
  | .error m => .error m
  | .ok c2 =>
    let c3 := { c2 with scope_depth := c2.scope_depth - 1 }
    let nb_vars_to_pop : Nat :=
      (c3.locals.reverse.takeWhile (fun l => decide (l.depth > c3.scope_depth))).length
    let c4 := { c3 with locals := c3.locals.take (c3.locals.length - nb_vars_to_pop) }
    match nb_vars_to_pop with
    | 0 => .ok c4
    | 1 => .ok (Compiler.emit_byte c4 (OpCode.toByte .OpPop))
    | _ => .ok (Compiler.emit_bytes c4 (OpCode.toByte .OpPopN) nb_vars_to_pop)
termination_by (sizeOf ds, 1)

/-- Loop of `Compiler::run` from compiler.rs over the declarations. -/
def Compiler.declList (c : Compiler) (ds : List DeclarationWithLineNo) : Except String Compiler :=
  match ds with
  | [] => .ok c
  | d :: rest =>
    match Compiler.declaration c d with
    | .error m => .error m
    | .ok c1 => Compiler.declList c1 rest
termination_by (sizeOf ds, 0)

/-- Function `Compiler::run` from compiler.rs on a declaration list: compile
every declaration, then emit the final `OP_EOF`. -/
def Compiler.runList (c : Compiler) (ds : List DeclarationWithLineNo) : Except String Compiler :=
  match Compiler.declList c ds with
  | .error m => .error m
  | .ok c1 => .ok (Compiler.emit_byte c1 (OpCode.toByte .OpEof))
termination_by (sizeOf ds, 2)

end

/-- Function `Compiler::run` from compiler.rs: compile the program's
declarations and emit the final `OP_EOF`. -/
def Compiler.run (c : Compiler) (p : Program) : Except String Compiler :=
  Compiler.runList c p.declarations

/-
  Spec-side definitions (written from the spec's words, for comparison
  with the embedded code) and helper lemmas.
-/

/-- Spec-side summary of the OP_ADD outcomes, following the spec sentence:
two Numbers add, two Strings concatenate (first popped second, i.e. `a`,
in front), and every other combination has no result (a runtime error). -/
def addResult : Value → Value → Option Value
  | .Number x, .Number y => some (.Number (f64add x y))
  | .Str x, .Str y => some (.Str (x ++ y))
  | _, _ => none

/-- Helper: `get_chunk` resolved, given the current frame and the Function
value sitting at its base slot. -/
lemma get_chunk_eq {frames : List CallFrame} {cfi ip base : Nat} {stack : List Value}
    {g : List (String × Value)} {ar : Nat} {code : List Nat} {consts : List Value}
    {li : LineInfo} {nm : String}
    (hf : frames[cfi]? = some ⟨ip, base⟩)
    (hs : stack[base]? = some (.Function ar code consts li nm)) :
    get_chunk ⟨frames, cfi, stack, g⟩ = .ok (code, consts, li) := by
  unfold get_chunk
  simp only [hf, hs]

/-- Helper: `read_byte` resolved: returns the byte at `ip` and bumps `ip`. -/
lemma read_byte_eq {frames : List CallFrame} {cfi ip base : Nat} {stack : List Value}
    {g : List (String × Value)} {ar : Nat} {code : List Nat} {consts : List Value}
    {li : LineInfo} {nm : String} {byt : Nat}
    (hf : frames[cfi]? = some ⟨ip, base⟩)
    (hs : stack[base]? = some (.Function ar code consts li nm))
    (hc : code[ip]? = some byt) :
    read_byte ⟨frames, cfi, stack, g⟩ =
      .ok (byt, ⟨frames.set cfi ⟨ip + 1, base⟩, cfi, stack, g⟩) := by
  unfold read_byte
  simp only [hf, get_chunk_eq hf hs, hc]

/-- Helper: `pop` takes the last pushed value. -/
lemma pop_eq {frames : List CallFrame} {cfi : Nat} {l : List Value} {v : Value}
    {g : List (String × Value)} :
    pop ⟨frames, cfi, l ++ [v], g⟩ = .ok (v, ⟨frames, cfi, l, g⟩) := by
  unfold pop
  simp

/-- Helper: `runtime_error` resolved: formats the message with the line of
`ip - 1`. -/
lemma runtime_error_eq {frames : List CallFrame} {cfi ipp base : Nat} {stack : List Value}
    {g : List (String × Value)} {ar : Nat} {code : List Nat} {consts : List Value}
    {li : LineInfo} {nm : String} {ln : Nat} {msg : String}
    (hf : frames[cfi]? = some ⟨ipp, base⟩)
    (hs : stack[base]? = some (.Function ar code consts li nm))
    (hip : ipp ≠ 0)
    (hl : li.get_lineno (ipp - 1) = some ln) :
    runtime_error ⟨frames, cfi, stack, g⟩ msg =
      .ok (msg ++ "\n[line " ++ toString ln ++ "] in script") := by
  unfold runtime_error
  simp only [hf, get_chunk_eq hf hs, hip, hl]
  simp [hip]

/-- C4: for every dispatch of OP_ADD with `b` the first popped value and `a`
the second: two Numbers push `Number (a + b)`, two Strings push the
concatenation of `a` then `b`, and every other combination raises the
runtime error "Operands must be two numbers or two strings" — the three
cases of `addResult` are the only outcomes. -/
theorem op_add_cases
    (frames : List CallFrame) (cfi ip base : Nat) (rest : List Value) (a b : Value)
    (g : List (String × Value)) (ar : Nat) (code : List Nat) (consts : List Value)
    (li : LineInfo) (nm : String) (ln : Nat)
    (hf : frames[cfi]? = some ⟨ip, base⟩)
    (hb : base < rest.length)
    (hs : rest[base]? = some (.Function ar code consts li nm))
    (hc : code[ip]? = some (OpCode.toByte .OpAdd))
    (hl : li.get_lineno ip = some ln) :
    step ⟨frames, cfi, rest ++ [a, b], g⟩ =
      match addResult a b with
      | some v => .ok ⟨frames.set cfi ⟨ip + 1, base⟩, cfi, rest ++ [v], g⟩
      | none =>
        .err ("Operands must be two numbers or two strings"
          ++ "\n[line " ++ toString ln ++ "] in script") := by
  have hlen : cfi < frames.length := (List.getElem?_eq_some.mp hf).1
  have hstack : (rest ++ [a, b] : List Value)[base]? =
      some (.Function ar code consts li nm) := by
    rw [List.getElem?_append_left hb]; exact hs
  have hf2 : (frames.set cfi ⟨ip + 1, base⟩)[cfi]? = some ⟨ip + 1, base⟩ :=
    List.getElem?_set_self hlen
  have hassoc : rest ++ [a, b] = (rest ++ [a]) ++ [b] := by simp
  have htf : OpCode.try_from (OpCode.toByte .OpAdd) = some .OpAdd := rfl
  have hl2 : li.get_lineno (ip + 1 - 1) = some ln := by simpa using hl
  have herr := @runtime_error_eq _ _ _ _ _ g _ _ _ _ _ _
    ("Operands must be two numbers or two strings") hf2 hs (Nat.succ_ne_zero ip) hl2
  simp only [step, read_byte_eq hf hstack hc, htf]
  simp only [hassoc, pop_eq]
  cases a <;> cases b <;> simp only [addResult, push, herr]

/-- Script function whose chunk is the single OP_ADD byte, for the C4
witness. -/
def c4F : Value := .Function 0 [1] [] ⟨[(0, 1)]⟩ ("<script>")

/-- Witness for `op_add_cases`: adding Number 2 and Number 3 in a concrete
state pushes their sum. -/
theorem op_add_cases_witness :
    step ⟨[⟨0, 0⟩], 0, [c4F, .Number ⟨false, 2⟩, .Number ⟨false, 3⟩], []⟩ =
      .ok ⟨[⟨1, 0⟩], 0, [c4F, .Number (f64add ⟨false, 2⟩ ⟨false, 3⟩)], []⟩ := by
  have h := op_add_cases [⟨0, 0⟩] 0 0 0 [c4F] (.Number ⟨false, 2⟩) (.Number ⟨false, 3⟩)
    [] 0 [1] [] ⟨[(0, 1)]⟩ ("<script>") 1 rfl (by decide) rfl rfl rfl
  simpa [addResult] using h

/-- Function at stack slot 1 whose chunk is `[OP_SET_LOCAL, 0]`, for C1. -/
def c1F : Value := .Function 0 [23, 0] [] ⟨[(0, 1)]⟩ ("f")

/-- State dispatching OP_SET_LOCAL slot 0 in a frame whose base is 1: the
current function sits at stack slot 1, `peek(0)` is Number 9. -/
def c1s0 : VMState := ⟨[⟨0, 1⟩], 0, [.Boolean true, c1F, .Number ⟨false, 9⟩], []⟩

/-- C1 (code bug evidence): OP_SET_LOCAL with operand 0 in a frame with
base 1 writes `peek(0)` to absolute stack index 0 — the claimed target
`base + slot = 1` is left unchanged (it still holds the function), while
slot 0, which the claim says must not change, is overwritten. -/
theorem set_local_ignores_frame_base :
    step c1s0 = .ok ⟨[⟨2, 1⟩], 0, [.Number ⟨false, 9⟩, c1F, .Number ⟨false, 9⟩], []⟩ ∧
    ([.Number ⟨false, 9⟩, c1F, .Number ⟨false, 9⟩] : List Value)[1]? = c1s0.stack[1]? ∧
    ¬ ([.Number ⟨false, 9⟩, c1F, .Number ⟨false, 9⟩] : List Value)[0]? = c1s0.stack[0]? := by
  refine ⟨rfl, rfl, fun h => ?_⟩
  exact Value.noConfusion (Option.some.inj h)

/-- Script function with chunk `[OP_CALL, 1]`, for C2. -/
def c2F : Value := .Function 0 [28, 1] [] ⟨[(0, 1)]⟩ ("<script>")

/-- Callee of arity 0, for the C2 arity-mismatch case. -/
def c2G : Value := .Function 0 [29] [] ⟨[(0, 1)]⟩ ("g")

/-- Callee of arity 1, for the C2 matching-arity case. -/
def c2H : Value := .Function 1 [29] [] ⟨[(0, 1)]⟩ ("h")

/-- Script function with chunk `[OP_CALL, 0]`, for the C2 non-callable
case. -/
def c2F2 : Value := .Function 0 [28, 0] [] ⟨[(0, 1)]⟩ ("<script>")

/-- C2 (code bug evidence): (i) with matching arity, OP_CALL argc 1 pushes
the frame `{ ip := 0, base := stack.len - argc - 1 = 1 }` as claimed;
(ii) with callee arity 0 and argc 1, no runtime error is reported — the
frame is pushed anyway, with base computed from the callee's arity
(`3 - 0 - 1 = 2`), not from argc; (iii) a non-callable callee hits
`todo!()` — a crash, not a diagnosed RuntimeError. -/
theorem op_call_unchecked :
    step ⟨[⟨0, 0⟩], 0, [c2F, c2H, .Number ⟨false, 1⟩], []⟩ =
      .ok ⟨[⟨2, 0⟩, ⟨0, 1⟩], 1, [c2F, c2H, .Number ⟨false, 1⟩], []⟩ ∧
    step ⟨[⟨0, 0⟩], 0, [c2F, c2G, .Number ⟨false, 1⟩], []⟩ =
      .ok ⟨[⟨2, 0⟩, ⟨0, 2⟩], 1, [c2F, c2G, .Number ⟨false, 1⟩], []⟩ ∧
    step ⟨[⟨0, 0⟩], 0, [c2F2, .Number ⟨false, 5⟩], []⟩ = .crash ("not yet implemented") :=
  ⟨rfl, rfl, rfl⟩

/-- Self-calling script function with chunk `[OP_CALL, 0]`, for C3. -/
def c3F : Value := .Function 0 [28, 0] [] ⟨[(0, 1)]⟩ ("<script>")

set_option maxRecDepth 40000 in
/-- C3 (code bug evidence): starting from `VM::new` on a function that
calls itself, 64 consecutive OP_CALL dispatches leave the VM with 65
frames and the loop still running — `FRAMES_MAX = 64` is never checked and
no stack-overflow error is reported. -/
theorem frame_stack_exceeds_limit :
    stepN 64 (VM.new 0 [28, 0] [] ⟨[(0, 1)]⟩ ("<script>")) =
      .ok ⟨List.replicate 64 (⟨2, 0⟩ : CallFrame) ++ [(⟨0, 0⟩ : CallFrame)], 64, [c3F], []⟩ ∧
    (List.replicate 64 (⟨2, 0⟩ : CallFrame) ++ [(⟨0, 0⟩ : CallFrame)]).length = 65 := by
  exact ⟨rfl, rfl⟩

/-- C5 (code bug evidence): `VM::new` leaves the globals map empty — in
particular "clock" is not bound — although `get_clock_native_func` (a
NativeFunction of arity 0 named "clock") exists in value.rs; it is never
called anywhere under src/. -/
theorem vm_new_globals_empty (arity : Nat) (code : List Nat) (constants : List Value)
    (line_info : LineInfo) (name : String) :
    (VM.new arity code constants line_info name).globals = [] ∧
    lookupGlobal (VM.new arity code constants line_info name).globals ("clock") = none ∧
    get_clock_native_func = .NativeFunction 0 ("clock") :=
  ⟨rfl, rfl, rfl⟩

/-- AST statement `return 1;`, for C6. -/
def c6ret : Statement :=
  .ReturnStmt (.mk ⟨.Return, ("return"), 1⟩ (some (.Literal (.Number ⟨false, 1⟩))))

/-- C6 (code bug evidence): `Compiler::statement` matches
`ReturnStmt(_)`, discarding the returned expression — every return
statement, whatever its expression, emits exactly the one OP_RETURN byte;
compiling `return 1;` in a fresh script compiler emits code `[7]`
(OP_RETURN) with an empty constant pool: no code for the expression `1` is
emitted before RETURN. -/
theorem return_statement_discards_expression :
    (∀ (c : Compiler) (r : ReturnStmt),
      Compiler.statement c (.ReturnStmt r) =
        .ok (Compiler.emit_byte c (OpCode.toByte .OpReturn))) ∧
    Compiler.statement (Compiler.new .Script) c6ret =
      .ok { current_line := 0
            function := { chunk := ⟨[7], [], ⟨[(0, 0)]⟩⟩, name := some ("<script>") }
            function_type := .Script
            locals := []
            scope_depth := 0 } := by
  constructor
  · intro c r
    simp [Compiler.statement, Compiler.return_statement]
  · simp [c6ret, Compiler.statement, Compiler.return_statement, Compiler.new,
      Compiler.emit_byte, Chunk.write, Chunk.new, LineInfo.add, LineInfo.new,
      OpCode.toByte]

/-- Spec-side big-endian decode of a two-byte jump operand at `offset`
(mirrors how `VM::read_short` combines the bytes). -/
def decodeJumpOperand (code : List Nat) (offset : Nat) : Nat :=
  256 * code.getD offset 0 + code.getD (offset + 1) 0

/-- Helper: the two bytes `patch_jump` writes at the placeholder offset are
the masked big-endian halves of the distance. -/
lemma patch_jump_bytes (c : Compiler) (offset : Nat)
    (h : offset + 2 ≤ c.function.chunk.count) :
    (Compiler.patch_jump c offset).function.chunk.code.getD offset 0 =
      ((c.function.chunk.count - offset - 2) >>> 8) % 256 ∧
    (Compiler.patch_jump c offset).function.chunk.code.getD (offset + 1) 0 =
      (c.function.chunk.count - offset - 2) % 256 := by
  have hlen : offset < c.function.chunk.code.length := by
    have : offset + 2 ≤ c.function.chunk.code.length := h
    omega
  have hlen2 : offset + 1 < (c.function.chunk.code.set offset
      (((c.function.chunk.count - offset - 2) >>> 8) % 256)).length := by
    rw [List.length_set]
    have : offset + 2 ≤ c.function.chunk.code.length := h
    omega
  constructor
  · simp only [Compiler.patch_jump, Chunk.replace_at, List.getD, List.get?_eq_getElem?]
    rw [List.getElem?_set_ne (by omega : offset + 1 ≠ offset), List.getElem?_set_self hlen]
    rfl
  · simp only [Compiler.patch_jump, Chunk.replace_at, List.getD, List.get?_eq_getElem?]
    rw [List.getElem?_set_self hlen2]
    rfl

/-- Helper: the patched operand decodes to the distance reduced mod 2^16. -/
lemma patch_jump_decode (c : Compiler) (offset : Nat)
    (h : offset + 2 ≤ c.function.chunk.count) :
    decodeJumpOperand (Compiler.patch_jump c offset).function.chunk.code offset =
      (c.function.chunk.count - offset - 2) % 65536 := by
  obtain ⟨h1, h2⟩ := patch_jump_bytes c offset h
  unfold decodeJumpOperand
  rw [h1, h2, Nat.shiftRight_eq_div_pow]
  have : (2 : Nat) ^ 8 = 256 := by norm_num
  rw [this]
  omega

/-- C7 (amended): `emit_jump` appends the opcode plus two zero placeholder
bytes and returns the offset of the first placeholder; `patch_jump` writes
`distance = current_offset - (placeholder_offset + 2)` into those two bytes
as a big-endian value reduced mod 2^16 — a distance that does not fit in 16
bits is silently truncated, with no compile error. -/
theorem emit_patch_jump_spec (c : Compiler) (instruction : Nat) (c2 : Compiler) (offset : Nat)
    (h : offset + 2 ≤ c2.function.chunk.count) :
    (Compiler.emit_jump c instruction).1.function.chunk.code =
      c.function.chunk.code ++ [instruction, 0, 0] ∧
    (Compiler.emit_jump c instruction).2 = c.function.chunk.code.length + 1 ∧
    decodeJumpOperand (Compiler.patch_jump c2 offset).function.chunk.code offset =
      (c2.function.chunk.count - offset - 2) % 65536 := by
  refine ⟨?_, ?_, patch_jump_decode c2 offset h⟩
  · simp [Compiler.emit_jump, Compiler.emit_byte, Chunk.write]
  · simp [Compiler.emit_jump, Compiler.emit_byte, Chunk.write, Chunk.count]

/-- Compiler holding the chunk `[OP_JUMP, 0, 0]`, as left by an emit_jump at
the start of a fresh chunk. -/
def c7small : Compiler :=
  { current_line := 0
    function := { chunk := ⟨[24, 0, 0], [], ⟨[(0, 0)]⟩⟩, name := some ("<script>") }
    function_type := .Script
    locals := []
    scope_depth := 0 }

/-- Witness for `emit_patch_jump_spec` at a fresh compiler and a 3-byte
chunk patched at offset 1 (distance 0). -/
theorem emit_patch_jump_spec_witness :
    (Compiler.emit_jump (Compiler.new .Script) 24).1.function.chunk.code = [24, 0, 0] ∧
    decodeJumpOperand (Compiler.patch_jump c7small 1).function.chunk.code 1 = 0 := by
  have h := emit_patch_jump_spec (Compiler.new .Script) 24 c7small 1 (by decide)
  exact ⟨by simpa [Compiler.new, Chunk.new] using h.1, by simpa using h.2.2⟩

/-- Compiler holding a chunk of 65538 zero bytes: a jump patched at offset 0
has distance 65536, one past the largest 16-bit value. -/
def c7big : Compiler :=
  { current_line := 0
    function := { chunk := ⟨List.replicate 65538 0, [], ⟨[]⟩⟩, name := some ("<script>") }
    function_type := .Script
    locals := []
    scope_depth := 0 }

/-- C7 counterexample: at distance 65536 — which does not fit in 16 bits —
`patch_jump` does not fail with a compile error; it writes the truncated
bytes 0, 0, and the stored operand decodes to 0, not 65536. -/
theorem patch_jump_truncates_without_error :
    c7big.function.chunk.count - 0 - 2 = 65536 ∧
    (Compiler.patch_jump c7big 0).function.chunk.code.getD 0 0 = 0 ∧
    (Compiler.patch_jump c7big 0).function.chunk.code.getD 1 0 = 0 ∧
    decodeJumpOperand (Compiler.patch_jump c7big 0).function.chunk.code 0 = 0 ∧
    (0 : Nat) ≠ 65536 := by
  have hc : c7big.function.chunk.count = 65538 := by
    rw [show c7big.function.chunk.count = (List.replicate 65538 (0 : Nat)).length from rfl,
      List.length_replicate]
  have h : 0 + 2 ≤ c7big.function.chunk.count := by omega
  obtain ⟨h1, h2⟩ := patch_jump_bytes c7big 0 h
  have hd := patch_jump_decode c7big 0 h
  rw [hc] at h1 h2 hd
  refine ⟨by omega, ?_, ?_, ?_, by decide⟩
  · rw [h1]; decide
  · rw [show (0 : Nat) + 1 = 1 from rfl] at h2
    rw [h2]
  · rw [hd]

/-- C10: for every compiler chunk and in-bounds placeholder offset,
`patch_jump` changes at most the two code bytes at `offset` and
`offset + 1`: the code length, every other code byte, the constant pool,
the line table, and the rest of the compiler state are unchanged. -/
theorem patch_jump_frame_effect (c : Compiler) (offset : Nat)
    (h : offset + 1 < c.function.chunk.code.length) :
    (Compiler.patch_jump c offset).function.chunk.code.length =
      c.function.chunk.code.length ∧
    (∀ j, j ≠ offset → j ≠ offset + 1 →
      (Compiler.patch_jump c offset).function.chunk.code[j]? =
        c.function.chunk.code[j]?) ∧
    (Compiler.patch_jump c offset).function.chunk.constants = c.function.chunk.constants ∧
    (Compiler.patch_jump c offset).function.chunk.line_info = c.function.chunk.line_info ∧
    (Compiler.patch_jump c offset).function.name = c.function.name ∧
    (Compiler.patch_jump c offset).locals = c.locals ∧
    (Compiler.patch_jump c offset).scope_depth = c.scope_depth ∧
    (Compiler.patch_jump c offset).current_line = c.current_line := by
  refine ⟨by simp [Compiler.patch_jump, Chunk.replace_at], ?_, rfl, rfl, rfl, rfl, rfl, rfl⟩
  intro j hj1 hj2
  simp only [Compiler.patch_jump, Chunk.replace_at]
  rw [List.getElem?_set_ne (Ne.symm hj2), List.getElem?_set_ne (Ne.symm hj1)]

/-- Witness for `patch_jump_frame_effect` on the 3-byte chunk `[24, 0, 0]`
patched at offset 1: byte 0 is untouched. -/
theorem patch_jump_frame_effect_witness :
    (Compiler.patch_jump c7small 1).function.chunk.code.length =
      c7small.function.chunk.code.length ∧
    (Compiler.patch_jump c7small 1).function.chunk.code[0]? =
      c7small.function.chunk.code[0]? := by
  have h := patch_jump_frame_effect c7small 1 (by decide)
  exact ⟨h.1, h.2.1 0 (by decide) (by decide)⟩

mutual

/-- Helper: derived equality is reflexive on every NaN-free value. -/
theorem valueBeq_refl : ∀ (v : Value), nanFree v = true → valueBeq v v = true
  | .Number x, h => by
    simp only [nanFree, Bool.not_eq_true'] at h
    simp [valueBeq, f64Beq, h]
  | .Boolean b, _ => by simp [valueBeq]
  | .Str s, _ => by simp [valueBeq]
  | .Function ar code consts li nm, h => by
    simp only [nanFree] at h
    simp [valueBeq, valuesBeq_refl consts h]
  | .NativeFunction ar nm, _ => by simp [valueBeq]

/-- Helper: element-wise derived equality is reflexive on NaN-free constant
pools. -/
theorem valuesBeq_refl : ∀ (l : List Value), nanFreeList l = true → valuesBeq l l = true
  | [], _ => by simp [valuesBeq]
  | x :: xs, h => by
    simp only [nanFreeList, Bool.and_eq_true] at h
    simp [valuesBeq, valueBeq_refl x h.1, valuesBeq_refl xs h.2]

end

/-- C8 (amended): derived structural equality is reflexive on every Value
containing no NaN payload (anywhere, including inside nested constant
pools), and `!=` — pushed by OP_BANG_EQUAL — is exactly the negation of the
`==` pushed by OP_EQUAL_EQUAL, for all values. -/
theorem value_equality_reflexive_consistent :
    (∀ v : Value, nanFree v = true → valueBeq v v = true) ∧
    (∀ a b : Value, valueBneq a b = !valueBeq a b) :=
  ⟨valueBeq_refl, fun _ _ => rfl⟩

/-- Witness for `value_equality_reflexive_consistent`: a string is equal to
itself, and one bang-equal evaluation is the negation of the equality. -/
theorem value_equality_reflexive_consistent_witness :
    valueBeq (.Str ("abc")) (.Str ("abc")) = true ∧
    valueBneq (.Boolean true) (.Number F64.nan) =
      !valueBeq (.Boolean true) (.Number F64.nan) :=
  ⟨value_equality_reflexive_consistent.1 _ (by simp [nanFree]),
    value_equality_reflexive_consistent.2 _ _⟩

/-- C8 counterexample: `Number(NaN) == Number(NaN)` is false — IEEE-754
equality on the payload is not reflexive at NaN, so `v == v` does not hold
for every f64 payload. -/
theorem number_nan_not_self_equal :
    valueBeq (.Number F64.nan) (.Number F64.nan) = false := by
  simp [valueBeq, f64Beq, F64.nan]

/-- Spec-side construction of a line table by adding `(offset, line)` pairs
in order to an empty table. -/
def buildLineInfo (pairs : List (Nat × Nat)) : LineInfo :=
  pairs.foldl (fun li p => li.add p.1 p.2) LineInfo.new

/-- Spec-side lookup, following the spec's words: the line of the greatest
stored offset ≤ the query (the last stored pair whose offset is ≤ q, for a
table with strictly increasing offsets), which for queries past the end is
the last entry's line. -/
def specLookup (li : LineInfo) (q : Nat) : Option Nat :=
  ((li.info.filter (fun p => decide (p.1 ≤ q))).getLast?).map Prod.snd

/-- Maximum of a list of naturals, if nonempty. -/
def natListMax (l : List Nat) : Option Nat :=
  l.foldl (fun acc o =>
    match acc with
    | none => some o
    | some m => some (Nat.max m o)) none

/-- Spec-side: the greatest stored offset that is ≤ the query. -/
def greatestStoredOffsetLE (li : LineInfo) (q : Nat) : Option Nat :=
  natListMax ((li.info.map Prod.fst).filter (fun o => decide (o ≤ q)))

/-- Helper: on a table with strictly increasing offsets, the Rust lookup
loop returns the line of the last stored pair with offset ≤ q, falling back
to `prev` when there is none. -/
lemma getLinenoGo_sorted (q : Nat) :
    ∀ (l : List (Nat × Nat)) (prev : Option Nat),
      l.Pairwise (fun p1 p2 => p1.1 < p2.1) →
      LineInfo.getLinenoGo prev l q =
        (match (l.filter (fun p => decide (p.1 ≤ q))).getLast? with
         | some p => some p.2
         | none => prev) := by
  intro l
  induction l with
  | nil => intro prev _; rfl
  | cons hd tl ih =>
    intro prev hp
    rw [List.pairwise_cons] at hp
    obtain ⟨h1, h2⟩ := hp
    obtain ⟨o, ln⟩ := hd
    by_cases hq : q = o
    · subst hq
      have hfil : tl.filter (fun p => decide (p.1 ≤ q)) = [] :=
        List.filter_eq_nil_iff.mpr (fun p hp2 => by
          have := h1 p hp2
          simp only [decide_eq_true_eq]
          simp only at this
          omega)
      simp [LineInfo.getLinenoGo, hfil]
    · by_cases hlt : q < o
      · have ho : ¬ ((o : Nat) ≤ q) := by omega
        have hfil : tl.filter (fun p => decide (p.1 ≤ q)) = [] :=
          List.filter_eq_nil_iff.mpr (fun p hp2 => by
            have := h1 p hp2
            simp only [decide_eq_true_eq]
            simp only at this
            omega)
        simp [LineInfo.getLinenoGo, hq, hlt, ho, hfil]
      · have ho : (o : Nat) ≤ q := by omega
        have hlhs : LineInfo.getLinenoGo prev ((o, ln) :: tl) q =
            LineInfo.getLinenoGo (some ln) tl q := by
          simp [LineInfo.getLinenoGo, hq, hlt]
        rw [hlhs, ih (some ln) h2]
        have hfc : ((o, ln) :: tl).filter (fun p => decide (p.1 ≤ q)) =
            (o, ln) :: tl.filter (fun p => decide (p.1 ≤ q)) := by
          simp [List.filter_cons, ho]
        rw [hfc]
        cases hfil : tl.filter (fun p => decide (p.1 ≤ q)) with
        | nil => simp
        | cons y ys => rfl

/-- Helper: one `add` either appends the pair at the end or stores
nothing. -/
lemma add_info_cases (li : LineInfo) (o ln : Nat) :
    (li.add o ln).info = li.info ++ [(o, ln)] ∨ (li.add o ln).info = li.info := by
  unfold LineInfo.add
  cases li.info.getLast? with
  | none => left; rfl
  | some p =>
    obtain ⟨po, pl⟩ := p
    by_cases h : ln > pl
    · left; simp [h]
    · right; simp [h]

/-- Helper: `add` preserves strictly increasing offsets when the new offset
exceeds every stored one. -/
lemma add_sorted {li : LineInfo} {o ln : Nat}
    (hs : li.info.Pairwise (fun p1 p2 => p1.1 < p2.1))
    (hub : ∀ p ∈ li.info, p.1 < o) :
    (li.add o ln).info.Pairwise (fun p1 p2 => p1.1 < p2.1) := by
  rcases add_info_cases li o ln with h | h <;> rw [h]
  · rw [List.pairwise_append]
    refine ⟨hs, List.pairwise_singleton _ _, ?_⟩
    intro a ha b hb
    simp only [List.mem_singleton] at hb
    subst hb
    exact hub a ha
  · exact hs

/-- Helper: an upper bound on the stored offsets survives an `add` of a
smaller offset. -/
lemma add_ub {li : LineInfo} {o ln x : Nat}
    (hub : ∀ p ∈ li.info, p.1 < x) (ho : o < x) :
    ∀ p ∈ (li.add o ln).info, p.1 < x := by
  intro p hp
  rcases add_info_cases li o ln with h | h <;> rw [h] at hp
  · rcases List.mem_append.mp hp with h2 | h2
    · exact hub p h2
    · simp only [List.mem_singleton] at h2
      subst h2
      exact ho
  · exact hub p hp

/-- Helper: folding `add` over pairs with strictly increasing offsets keeps
the stored offsets strictly increasing. -/
lemma build_sorted_aux :
    ∀ (pairs : List (Nat × Nat)) (li : LineInfo),
      pairs.Pairwise (fun p1 p2 => p1.1 < p2.1) →
      li.info.Pairwise (fun p1 p2 => p1.1 < p2.1) →
      (∀ p ∈ li.info, ∀ p2 ∈ pairs, p.1 < p2.1) →
      (pairs.foldl (fun l p => l.add p.1 p.2) li).info.Pairwise
        (fun p1 p2 => p1.1 < p2.1) := by
  intro pairs
  induction pairs with
  | nil => intro li _ h _; simpa using h
  | cons hd tl ih =>
    intro li hp hs hub
    rw [List.pairwise_cons] at hp
    obtain ⟨h1, h2⟩ := hp
    rw [List.foldl_cons]
    apply ih (li.add hd.1 hd.2) h2
    · exact add_sorted hs (fun p hp2 => hub p hp2 hd (List.mem_cons_self _ _))
    · intro p hp2 p2 hp3
      exact add_ub (fun r hr => hub r hr p2 (List.mem_cons_of_mem _ hp3)) (h1 p2 hp3) p hp2

/-- Helper: in a pairwise-related list, every element is the last one or
relates to it. -/
lemma pairwise_last_rel {α : Type} {R : α → α → Prop} :
    ∀ {l : List α} {x : α}, l.Pairwise R → l.getLast? = some x →
      ∀ a ∈ l, a = x ∨ R a x := by
  intro l
  induction l with
  | nil => intro x _ h; simp at h
  | cons hd tl ih =>
    intro x hp hl a ha
    rw [List.pairwise_cons] at hp
    cases tl with
    | nil =>
      simp only [List.getLast?_singleton, Option.some.injEq] at hl
      simp only [List.mem_singleton] at ha
      subst hl; subst ha; exact Or.inl rfl
    | cons y ys =>
      have hl2 : (y :: ys).getLast? = some x := hl
      rcases List.mem_cons.mp ha with rfl | h2
      · exact Or.inr (hp.1 x (List.mem_of_mem_getLast? hl2))
      · exact ih hp.2 hl2 a h2

/-- Helper: `add` keeps the stored lines strictly increasing — it stores a
pair only when its line strictly exceeds the last stored line. -/
lemma add_lines {li : LineInfo} {o ln : Nat}
    (h : li.info.Pairwise (fun p1 p2 => p1.2 < p2.2)) :
    (li.add o ln).info.Pairwise (fun p1 p2 => p1.2 < p2.2) := by
  unfold LineInfo.add
  cases hlast : li.info.getLast? with
  | none =>
    have hnil : li.info = [] := List.getLast?_eq_none_iff.mp hlast
    simp [hnil]
  | some p =>
    obtain ⟨po, pl⟩ := p
    by_cases hln : ln > pl
    · simp only [hln, if_true]
      rw [List.pairwise_append]
      refine ⟨h, List.pairwise_singleton _ _, ?_⟩
      intro a ha b hb
      simp only [List.mem_singleton] at hb
      subst hb
      rcases pairwise_last_rel h hlast a ha with rfl | hr
      · simpa using hln
      · have : a.2 < pl := hr
        simp only
        omega
    · simp [hln]
      exact h

/-- Helper: the built table always has strictly increasing lines. -/
lemma build_lines_aux :
    ∀ (pairs : List (Nat × Nat)) (li : LineInfo),
      li.info.Pairwise (fun p1 p2 => p1.2 < p2.2) →
      (pairs.foldl (fun l p => l.add p.1 p.2) li).info.Pairwise
        (fun p1 p2 => p1.2 < p2.2) := by
  intro pairs
  induction pairs with
  | nil => intro li h; simpa using h
  | cons hd tl ih =>
    intro li h
    rw [List.foldl_cons]
    exact ih _ (add_lines h)

/-- C9 (amended): for a line table built by adding pairs with strictly
increasing offsets, only pairs whose line strictly exceeds the last stored
line are stored (the stored lines are strictly increasing), and for every
query at or after the first stored offset, `get_lineno` returns the line of
the greatest stored offset ≤ the query (which, past the last stored offset,
is the last entry's line) — and that lookup succeeds. -/
theorem line_table_lookup_spec (pairs : List (Nat × Nat)) (q : Nat) (p0 : Nat × Nat)
    (hmono : pairs.Pairwise (fun p1 p2 => p1.1 < p2.1))
    (hhead : (buildLineInfo pairs).info.head? = some p0)
    (hq : p0.1 ≤ q) :
    LineInfo.get_lineno (buildLineInfo pairs) q = specLookup (buildLineInfo pairs) q ∧
    (∃ ln, LineInfo.get_lineno (buildLineInfo pairs) q = some ln) ∧
    (buildLineInfo pairs).info.Pairwise (fun p1 p2 => p1.2 < p2.2) := by
  have hsorted : (buildLineInfo pairs).info.Pairwise (fun p1 p2 => p1.1 < p2.1) :=
    build_sorted_aux pairs LineInfo.new hmono (by simp [LineInfo.new]) (by simp [LineInfo.new])
  have heq : LineInfo.get_lineno (buildLineInfo pairs) q =
      (match ((buildLineInfo pairs).info.filter
          (fun p => decide (p.1 ≤ q))).getLast? with
       | some p => some p.2
       | none => none) :=
    getLinenoGo_sorted q (buildLineInfo pairs).info none hsorted
  have hfmem : p0 ∈ (buildLineInfo pairs).info.filter (fun p => decide (p.1 ≤ q)) :=
    List.mem_filter.mpr ⟨List.mem_of_mem_head? hhead, by simpa using hq⟩
  have hne : (buildLineInfo pairs).info.filter (fun p => decide (p.1 ≤ q)) ≠ [] :=
    List.ne_nil_of_mem hfmem
  refine ⟨?_, ?_, build_lines_aux pairs LineInfo.new (by simp [LineInfo.new])⟩
  · rw [heq]
    unfold specLookup
    cases ((buildLineInfo pairs).info.filter (fun p => decide (p.1 ≤ q))).getLast? <;> simp
  · rw [heq]
    cases hcase : ((buildLineInfo pairs).info.filter
        (fun p => decide (p.1 ≤ q))).getLast? with
    | none => exact absurd (List.getLast?_eq_none_iff.mp hcase) hne
    | some y => exact ⟨y.2, rfl⟩

/-- Witness for `line_table_lookup_spec`: adding (0,1), (1,1), (2,2) stores
[(0,1), (2,2)], and a query past the end returns the last entry's line. -/
theorem line_table_lookup_spec_witness :
    LineInfo.get_lineno (buildLineInfo [(0, 1), (1, 1), (2, 2)]) 5 =
      specLookup (buildLineInfo [(0, 1), (1, 1), (2, 2)]) 5 ∧
    LineInfo.get_lineno (buildLineInfo [(0, 1), (1, 1), (2, 2)]) 5 = some 2 := by
  have h := line_table_lookup_spec [(0, 1), (1, 1), (2, 2)] 5 (0, 1)
    (by decide) rfl (by decide)
  exact ⟨h.1, by rw [h.1]; rfl⟩

/-- C9 counterexample: with merely nondecreasing offsets, two adds at the
same offset 5 (lines 1 then 2) are both stored; queries 5 and 6 have the
same greatest stored offset ≤ q (namely 5) yet `get_lineno` returns
different lines (1 and 2), so the lookup result is not the line of the
greatest stored offset ≤ the query. -/
theorem line_lookup_duplicate_offset_counterexample :
    ([(5, 1), (5, 2)] : List (Nat × Nat)).Pairwise (fun p1 p2 => p1.1 ≤ p2.1) ∧
    (buildLineInfo [(5, 1), (5, 2)]).info = [(5, 1), (5, 2)] ∧
    greatestStoredOffsetLE (buildLineInfo [(5, 1), (5, 2)]) 5 =
      greatestStoredOffsetLE (buildLineInfo [(5, 1), (5, 2)]) 6 ∧
    LineInfo.get_lineno (buildLineInfo [(5, 1), (5, 2)]) 5 = some 1 ∧
    LineInfo.get_lineno (buildLineInfo [(5, 1), (5, 2)]) 6 = some 2 := by
  exact ⟨by decide, rfl, rfl, rfl, rfl⟩

end rox
